/-
Verification of the DWD opendata grib retrieval pipeline
(src/dwd_opendata_get_grib.py and its near-duplicate dwd_opendata.py).

The Python source is shallowly embedded: pure computations become Lean
functions over Int/Nat/List, the asyncio download batch becomes a labelled
transition system, fallible code returns Except/Option, and the local file
system is a map from structured paths to file contents.
Degrees scaled by 100 are kept as integers (the code multiplies the float
metadata by 100 before building axes and divides the finished axis by 100;
the integer part is what the axis logic manipulates).
-/

import Mathlib

namespace DwdOpendata

/-! ## Grid geometry: numpy arange and the longitude axis (json_to_csv) -/

/-- Embedding of numpy arange(start, stop, step) for a positive integer step:
the ascending run start, start+step, ... strictly below stop.  Its length is
ceil((stop-start)/step), clamped at zero, exactly as numpy computes it. -/
def arangeLen (start stop step : Int) : Nat :=
  (((stop - start) + step - 1) / step).toNat

/-- numpy arange(start, stop, step) as a list of integers (positive step). -/
def arange (start stop step : Int) : List Int :=
  (List.range (arangeLen start stop step)).map (fun k => start + step * (k : Int))

/-- The longitude axis built by json_to_csv (df_cols), on the
scaled-by-100 integers.  Mirrors the source:
if start_longitude > end_longitude the axis is
arange(start, 36000, step) ++ arange(0, end+step, step); otherwise it is
arange(start, end, step) - note the missing +step in the else branch. -/
def lonAxis (start_longitude end_longitude step : Int) : List Int :=
  if start_longitude > end_longitude then
    arange start_longitude 36000 step ++ arange 0 (end_longitude + step) step
  else
    arange start_longitude end_longitude step

/-- The longitude axis as the claim words it (refinement comparison only):
wrap case as in the code, but the plain ascending case runs from firstLon to
lastLon INCLUSIVE. -/
def lonAxisClaimed (start_longitude end_longitude step : Int) : List Int :=
  if start_longitude > end_longitude then
    arange start_longitude 36000 step ++ arange 0 (end_longitude + step) step
  else
    arange start_longitude (end_longitude + step) step

/-- C1: in the wrap case the code produces exactly the axis the claim
describes, but in the plain ascending case (firstLon=5, lastLon=15, step=1,
scaled to 500/1500/100) the code stops one step short of lastLon: it yields
[5,...,14] where the claim requires [5,...,15].  The latitude axis and the
wrap-branch tail both use end+step, so the missing +step is a slip in the
source. -/
theorem lonAxis_plain_branch_excludes_lastLon :
    lonAxis 35000 1000 100 =
      [35000, 35100, 35200, 35300, 35400, 35500, 35600, 35700, 35800, 35900,
       0, 100, 200, 300, 400, 500, 600, 700, 800, 900, 1000] ∧
    lonAxis 500 1500 100 =
      [500, 600, 700, 800, 900, 1000, 1100, 1200, 1300, 1400] ∧
    lonAxisClaimed 500 1500 100 =
      [500, 600, 700, 800, 900, 1000, 1100, 1200, 1300, 1400, 1500] ∧
    lonAxis 500 1500 100 ≠ lonAxisClaimed 500 1500 100 := by
  refine ⟨by decide, by decide, by decide, by decide⟩

/-! ## Crop window (INDEX constants and only_germany in json_to_csv) -/

def INDEX_47_DEG_LAT : Nat := 191
def INDEX_54P98_DEG_LAT : Nat := 591
def INDEX_5_DEG_LON : Nat := 447
def INDEX_14P98_DEG_LON : Nat := 947

/-- Python list/array slice l[a:b] for nonnegative bounds. -/
def pySlice (l : List α) (a b : Nat) : List α := (l.drop a).take (b - a)

/-- numpy 2-D slice m[r0:r1, c0:c1] on a matrix stored as rows. -/
def npSlice2D (m : List (List α)) (r0 r1 c0 c1 : Nat) : List (List α) :=
  (pySlice m r0 r1).map (fun row => pySlice row c0 c1)

/-- only_germany = data_matrix[191:591, 447:947] as computed in json_to_csv. -/
def onlyGermany (m : List (List α)) : List (List α) :=
  npSlice2D m INDEX_47_DEG_LAT INDEX_54P98_DEG_LAT INDEX_5_DEG_LON INDEX_14P98_DEG_LON

lemma pySlice_getElem? (l : List α) (a b i : Nat) (h : i < b - a) :
    (pySlice l a b)[i]? = l[a + i]? := by
  simp [pySlice, List.getElem?_take_of_lt h, List.getElem?_drop]

lemma pySlice_length (l : List α) (a b : Nat) (hb : b ≤ l.length) (hab : a ≤ b) :
    (pySlice l a b).length = b - a := by
  simp [pySlice, List.length_take, List.length_drop]
  omega

/-- C8: on any rectangular grid with at least 591 rows and 947 columns, the
production crop window returns the 400 x 500 sub-matrix of rows 191..590 and
columns 447..946, entry (i, j) of the crop being entry (191+i, 447+j) of the
grid. -/
theorem onlyGermany_is_crop_window (m : List (List α)) (nj ni : Nat) (d : α)
    (hrows : m.length = nj) (hcols : ∀ row ∈ m, row.length = ni)
    (hnj : 591 ≤ nj) (hni : 947 ≤ ni) :
    (onlyGermany m).length = 400 ∧
    (∀ row ∈ onlyGermany m, row.length = 500) ∧
    (∀ i j, i < 400 → j < 500 →
      ((onlyGermany m).getD i []).getD j d = (m.getD (191 + i) []).getD (447 + j) d) := by
  refine ⟨?_, ?_, ?_⟩
  · simp only [onlyGermany, npSlice2D, INDEX_47_DEG_LAT, INDEX_54P98_DEG_LAT, List.length_map]
    rw [pySlice_length m 191 591 (by omega) (by omega)]
  · intro row hrow
    simp only [onlyGermany, npSlice2D, INDEX_47_DEG_LAT, INDEX_54P98_DEG_LAT,
      INDEX_5_DEG_LON, INDEX_14P98_DEG_LON, List.mem_map] at hrow
    obtain ⟨r, hr, rfl⟩ := hrow
    simp only [pySlice] at hr
    have hrm : r ∈ m := List.mem_of_mem_drop (List.mem_of_mem_take hr)
    rw [pySlice_length r 447 947 (by rw [hcols r hrm]; omega) (by omega)]
  · intro i j hi hj
    have h1 : (onlyGermany m)[i]? = (m[191 + i]?).map (fun row => pySlice row 447 947) := by
      simp only [onlyGermany, npSlice2D, List.getElem?_map, INDEX_47_DEG_LAT,
        INDEX_54P98_DEG_LAT, INDEX_5_DEG_LON, INDEX_14P98_DEG_LON]
      rw [pySlice_getElem? m 191 591 i (by omega)]
    have h2 : 191 + i < m.length := by omega
    have h3 : m[191 + i]? = some m[191 + i] := List.getElem?_eq_getElem h2
    have hrm : m[191 + i] ∈ m := List.getElem_mem h2
    have h4 : (onlyGermany m).getD i [] = pySlice m[191 + i] 447 947 := by
      rw [List.getD_eq_getElem?_getD (onlyGermany m) i [], h1, h3]
      rfl
    have h5 : m.getD (191 + i) [] = m[191 + i] := by
      rw [List.getD_eq_getElem?_getD, h3]
      rfl
    rw [h4, h5, List.getD_eq_getElem?_getD, pySlice_getElem? m[191 + i] 447 947 j (by omega),
      List.getD_eq_getElem?_getD]

/-- Witness for C8: a concrete 591 x 947 grid satisfies the hypotheses, and
the crop facts hold there. -/
theorem onlyGermany_is_crop_window_witness :
    ((List.replicate 591 (List.replicate 947 (0 : Int))).length = 591 ∧
      (∀ row ∈ List.replicate 591 (List.replicate 947 (0 : Int)), row.length = 947)) ∧
    ((onlyGermany (List.replicate 591 (List.replicate 947 (0 : Int)))).length = 400 ∧
      (∀ row ∈ onlyGermany (List.replicate 591 (List.replicate 947 (0 : Int))), row.length = 500) ∧
      (∀ i j, i < 400 → j < 500 →
        ((onlyGermany (List.replicate 591 (List.replicate 947 (0 : Int)))).getD i []).getD j (0 : Int)
          = ((List.replicate 591 (List.replicate 947 (0 : Int))).getD (191 + i) []).getD (447 + j) (0 : Int))) := by
  refine ⟨⟨List.length_replicate _ _, ?_⟩, ?_⟩
  · intro row hrow
    rw [List.eq_of_mem_replicate hrow]
    exact List.length_replicate _ _
  · exact onlyGermany_is_crop_window (List.replicate 591 (List.replicate 947 (0 : Int)))
      591 947 0 (List.length_replicate _ _)
      (fun row hrow => by rw [List.eq_of_mem_replicate hrow]; exact List.length_replicate _ _)
      (by omega) (by omega)

/-! ## Level stacker (create_binary_file_over_all_flight_levels) -/

/-- numpy transpose M.T of a rectangular matrix stored as rows: entry (j, i)
of the transpose is entry (i, j) of the matrix. -/
def npT [Inhabited α] (m : List (List α)) : List (List α) :=
  (List.range (m.headD []).length).map
    (fun j => (List.range m.length).map (fun i => (m.getD i []).getD j default))

/-- The per-hour binary artifact written by
create_binary_file_over_all_flight_levels: for each cropped matrix (one per
flight level, in the order handed in), walk the rows of M.T (the columns of M)
outer and their entries inner, appending the byte encoding of each sample.
enc models bytes(val), the native byte representation of one sample. -/
def create_binary_file_over_all_flight_levels [Inhabited α]
    (enc : α → List Nat) (data_matrices : List (List (List α))) : List Nat :=
  data_matrices.flatMap (fun m => (npT m).flatten.flatMap enc)

/-- Column-major element order as the claim words it: columns outer, rows
inner, position (j, i) reading entry (i, j) of an r x c matrix. -/
def columnMajorOrder [Inhabited α] (r c : Nat) (m : List (List α)) : List α :=
  (List.range c).flatMap (fun j => (List.range r).map (fun i => (m.getD i []).getD j default))

lemma length_flatMap_const (f : α → List β) (w : Nat) (l : List α)
    (h : ∀ a ∈ l, (f a).length = w) : (l.flatMap f).length = l.length * w := by
  induction l with
  | nil => simp
  | cons a t ih =>
    simp only [List.flatMap_cons, List.length_append, List.length_cons,
      h a (List.mem_cons_self _ _), ih (fun b hb => h b (List.mem_cons_of_mem a hb))]
    ring

lemma npT_flatten_eq_columnMajorOrder [Inhabited α] (m : List (List α)) (r c : Nat)
    (hr : m.length = r) (hc : ∀ row ∈ m, row.length = c) :
    (npT m).flatten = columnMajorOrder r c m := by
  cases m with
  | nil =>
    simp only [List.length_nil] at hr
    subst hr
    simp [npT, columnMajorOrder]
  | cons row rest =>
    have hrow : row.length = c := hc row (List.mem_cons_self _ _)
    simp [npT, columnMajorOrder, hrow, hr, List.flatMap_def]

lemma columnMajorOrder_length [Inhabited α] (m : List (List α)) (r c : Nat) :
    (columnMajorOrder r c m).length = c * r := by
  unfold columnMajorOrder
  rw [length_flatMap_const _ r]
  · simp
  · intro j _
    simp

/-- C3: for any sequence of r x c matrices (one per level, in level order)
and any fixed-width sample encoding, the serialized artifact is exactly the
levels concatenated in order, each flattened in column-major order (columns
outer, rows inner) and byte-encoded with no separators; its length is
rows * cols * levelCount * sampleWidth, and the 2 x 2 level [[1,2],[3,4]]
serializes in the sample order 1,3,2,4. -/
theorem create_binary_file_layout [Inhabited α]
    (enc : α → List Nat) (w r c : Nat) (data_matrices : List (List (List α)))
    (hw : ∀ a, (enc a).length = w)
    (hm : ∀ m ∈ data_matrices, m.length = r ∧ ∀ row ∈ m, row.length = c) :
    create_binary_file_over_all_flight_levels enc data_matrices =
      data_matrices.flatMap (fun m => (columnMajorOrder r c m).flatMap enc) ∧
    (create_binary_file_over_all_flight_levels enc data_matrices).length =
      r * c * data_matrices.length * w ∧
    create_binary_file_over_all_flight_levels (fun a => [a])
      [[[1, 2], [3, 4]]] = [1, 3, 2, 4] := by
  have heq : create_binary_file_over_all_flight_levels enc data_matrices =
      data_matrices.flatMap (fun m => (columnMajorOrder r c m).flatMap enc) := by
    unfold create_binary_file_over_all_flight_levels
    induction data_matrices with
    | nil => simp
    | cons m rest ih =>
      simp only [List.flatMap_cons]
      rw [npT_flatten_eq_columnMajorOrder m r c (hm m (List.mem_cons_self _ _)).1
          (hm m (List.mem_cons_self _ _)).2,
        ih (fun m hm2 => hm m (List.mem_cons_of_mem _ hm2))]
  refine ⟨heq, ?_, by decide⟩
  rw [heq, length_flatMap_const _ (c * r * w)]
  · ring
  · intro m _
    rw [length_flatMap_const _ w _ (fun a _ => hw a), columnMajorOrder_length]

/-- Witness for C3: two 2 x 2 levels with a 2-byte sample encoding satisfy
the hypotheses, and the layout facts hold there. -/
theorem create_binary_file_layout_witness :
    ((∀ a : Nat, ([a, 0].length = 2)) ∧
      (∀ m ∈ ([[[1, 2], [3, 4]], [[5, 6], [7, 8]]] : List (List (List Nat))),
        m.length = 2 ∧ ∀ row ∈ m, row.length = 2)) ∧
    (create_binary_file_over_all_flight_levels (fun a => [a, 0])
        [[[1, 2], [3, 4]], [[5, 6], [7, 8]]] =
      ([[[1, 2], [3, 4]], [[5, 6], [7, 8]]] : List (List (List Nat))).flatMap
        (fun m => (columnMajorOrder 2 2 m).flatMap (fun a => [a, 0])) ∧
    (create_binary_file_over_all_flight_levels (fun a => [a, 0])
        [[[1, 2], [3, 4]], [[5, 6], [7, 8]]]).length = 2 * 2 * 2 * 2 ∧
    create_binary_file_over_all_flight_levels (fun a => [a])
      [[[1, 2], [3, 4]]] = [1, 3, 2, 4]) :=
  ⟨⟨fun _ => by simp, by decide⟩,
    create_binary_file_layout (fun a => [a, 0]) 2 2 2
      [[[1, 2], [3, 4]], [[5, 6], [7, 8]]] (fun _ => by simp) (by decide)⟩

/-! ## Bounded-concurrency download batch (download_url_list)

Each task built by download_url_list runs download_single_file, whose body
is: acquire the shared semaphore, perform the transfer, release the
semaphore (the async-with block releases on success and on the caught
HTTPError alike).  asyncio may interleave the n tasks arbitrarily, so the
batch is modelled as a transition system over the task phases and the
semaphore counter; a task is active exactly while it holds a semaphore
slot, which covers the whole transfer.  gather returns only when every
task has finished, modelled by the returning step. -/

inductive TaskPhase
  | waiting
  | active
  | done
deriving DecidableEq

structure BatchState (n : Nat) where
  phase : Fin n → TaskPhase
  sem : Nat
  returned : Bool

/-- download_url_list sets up: all tasks created, Semaphore(limit) fresh,
gather not yet returned. -/
def initBatch (n limit : Nat) : BatchState n :=
  ⟨fun _ => .waiting, limit, false⟩

inductive BatchStep (n : Nat) : BatchState n → BatchState n → Prop
  | acquire (s : BatchState n) (i : Fin n) :
      s.phase i = .waiting → 0 < s.sem → s.returned = false →
      BatchStep n s ⟨Function.update s.phase i .active, s.sem - 1, false⟩
  | finish (s : BatchState n) (i : Fin n) :
      s.phase i = .active → s.returned = false →
      BatchStep n s ⟨Function.update s.phase i .done, s.sem + 1, false⟩
  | ret (s : BatchState n) :
      (∀ i, s.phase i = .done) → s.returned = false →
      BatchStep n s ⟨s.phase, s.sem, true⟩

def BatchReachable (n limit : Nat) (s : BatchState n) : Prop :=
  Relation.ReflTransGen (BatchStep n) (initBatch n limit) s

/-- Number of tasks currently holding a semaphore slot (transfer in flight). -/
def activeCount {n : Nat} (phase : Fin n → TaskPhase) : Nat :=
  ∑ i : Fin n, if phase i = .active then 1 else 0

lemma activeCount_update {n : Nat} (f : Fin n → TaskPhase) (i : Fin n) (v : TaskPhase) :
    activeCount (Function.update f i v) + (if f i = .active then 1 else 0)
      = activeCount f + (if v = .active then 1 else 0) := by
  unfold activeCount
  have hfun : (fun x => if Function.update f i v x = TaskPhase.active then (1 : Nat) else 0)
      = Function.update (fun x => if f x = TaskPhase.active then (1 : Nat) else 0) i
          (if v = TaskPhase.active then 1 else 0) := by
    funext x
    rcases eq_or_ne x i with rfl | hxi
    · simp [Function.update_same]
    · simp [Function.update_noteq hxi]
  rw [show (∑ x : Fin n, if Function.update f i v x = TaskPhase.active then (1 : Nat) else 0)
        = ∑ x : Fin n, Function.update
            (fun x => if f x = TaskPhase.active then (1 : Nat) else 0) i
            (if v = TaskPhase.active then 1 else 0) x from
      Finset.sum_congr rfl (fun x _ => congrFun hfun x)]
  rw [Finset.sum_update_of_mem (Finset.mem_univ i),
    Finset.sum_eq_sum_diff_singleton_add (Finset.mem_univ i)
      (fun j => if f j = TaskPhase.active then (1 : Nat) else 0)]
  ring

lemma batch_step_invariant {n limit : Nat} {a b : BatchState n} (hstep : BatchStep n a b)
    (ih1 : activeCount a.phase + a.sem = limit) :
    activeCount b.phase + b.sem = limit ∧ (b.returned = true → ∀ i, b.phase i = .done) := by
  cases hstep with
  | acquire i hw hs hr =>
    constructor
    · have h1 := activeCount_update a.phase i .active
      rw [hw] at h1
      simp at h1
      simp only
      omega
    · intro hret
      simp at hret
  | finish i ha hr =>
    constructor
    · have h1 := activeCount_update a.phase i .done
      rw [ha] at h1
      simp at h1
      simp only
      omega
    · intro hret
      simp at hret
  | ret hdone hr =>
    exact ⟨ih1, fun _ => hdone⟩

lemma batch_invariant (n limit : Nat) (s : BatchState n) (h : BatchReachable n limit s) :
    activeCount s.phase + s.sem = limit ∧ (s.returned = true → ∀ i, s.phase i = .done) := by
  induction h with
  | refl =>
    constructor
    · simp [activeCount, initBatch]
    · intro hret
      simp [initBatch] at hret
  | tail _ hstep ih =>
    exact batch_step_invariant hstep ih.1

/-- C2: along every execution of a download batch with concurrency limit L,
at most L transfers hold the semaphore at any instant, and in every state in
which gather has returned, every task has reached its terminal phase. -/
theorem download_url_list_bounded_concurrency (n limit : Nat) (s : BatchState n)
    (h : BatchReachable n limit s) :
    activeCount s.phase ≤ limit ∧ (s.returned = true → ∀ i, s.phase i = .done) := by
  obtain ⟨h1, h2⟩ := batch_invariant n limit s h
  exact ⟨by omega, h2⟩

/-- Witness for C2: a batch of 3 targets with limit 2, after one task has
acquired the semaphore. -/
theorem download_url_list_bounded_concurrency_witness :
    BatchReachable 3 2
      ⟨Function.update (initBatch 3 2).phase 0 .active, (initBatch 3 2).sem - 1, false⟩ ∧
    (activeCount (⟨Function.update (initBatch 3 2).phase 0 .active,
        (initBatch 3 2).sem - 1, false⟩ : BatchState 3).phase ≤ 2 ∧
      ((false : Bool) = true → ∀ i : Fin 3,
        Function.update (initBatch 3 2).phase 0 TaskPhase.active i = .done)) :=
  ⟨Relation.ReflTransGen.single (BatchStep.acquire (initBatch 3 2) 0 rfl (by decide) rfl),
    download_url_list_bounded_concurrency 3 2 _
      (Relation.ReflTransGen.single (BatchStep.acquire (initBatch 3 2) 0 rfl (by decide) rfl))⟩

/-! ## Download outcomes and the missing-directory precondition
(download_single_file, download_url_list)

Observable model of one batch: each task first checks dest_folder.exists()
and raises FileNotFoundError when it is missing, all before touching the
semaphore or the network; otherwise it performs exactly one streamed
transfer.  client.stream raises httpx.HTTPError only for connection-level
failures; when the server does respond, the response body - whatever the
status code - is streamed to the destination file, because the code never
calls raise_for_status and an HTTPStatusError can come from nowhere else.
The except clause catches the connection-level error and degrades it to a
printed report.  The second component counts transport invocations
(client.stream calls).  gather propagates a raised FileNotFoundError out
of download_url_list, while the other targets still produce an outcome. -/

/-- What the remote end does for one streamed GET. -/
inductive Transport
  | responds (status : Nat) (body : List Nat)
  | connError
deriving DecidableEq

/-- Terminal state of one task: the streamed bytes were written to the
destination file (for a 4xx/5xx response these are the error page), the
caught httpx.HTTPError was printed with nothing reported upward, or the
precondition FileNotFoundError was raised. -/
inductive TaskOutcome
  | fileWritten (body : List Nat)
  | httpErrorLogged
  | raisedFileNotFound
deriving DecidableEq

inductive BatchError
  | fileNotFound
deriving DecidableEq

/-- download_single_file for one target.  The status of a received response
is never inspected (there is no raise_for_status call), so its body is
written to the destination file no matter the code. -/
def download_single_file (destExists : Bool) (t : Transport) : TaskOutcome × Nat :=
  if destExists = false then (.raisedFileNotFound, 0)
  else match t with
    | .responds _status body => (.fileWritten body, 1)
    | .connError => (.httpErrorLogged, 1)

/-- download_url_list over a batch, one Transport per target: the batch
either raises (when some task raised) or returns one terminal outcome per
target; the count sums all transport invocations. -/
def download_url_list (destExists : Bool) (transports : List Transport) :
    Except BatchError (List TaskOutcome) × Nat :=
  (if TaskOutcome.raisedFileNotFound
        ∈ (transports.map (download_single_file destExists)).map Prod.fst
    then .error .fileNotFound
    else .ok ((transports.map (download_single_file destExists)).map Prod.fst),
   ((transports.map (download_single_file destExists)).map Prod.snd).sum)

/-- C4: a nonempty batch against a missing destination directory raises
FileNotFoundError for the whole batch with zero transport invocations. -/
theorem download_url_list_missing_dir_fails_fast (transports : List Transport)
    (hne : transports ≠ []) :
    download_url_list false transports = (.error .fileNotFound, 0) := by
  cases transports with
  | nil => exact absurd rfl hne
  | cons b t =>
    unfold download_url_list
    rw [show (b :: t).map (download_single_file false)
          = (b :: t).map (fun _ => (TaskOutcome.raisedFileNotFound, 0)) from
        List.map_congr_left (fun x _ => rfl)]
    simp only [Prod.mk.injEq]
    constructor
    · rw [if_pos]
      simp only [List.map_cons, List.map_map]
      exact List.mem_cons_self _ _
    · simp only [List.map_map]
      rw [show ((b :: t).map (Prod.snd ∘ fun _ => (TaskOutcome.raisedFileNotFound, 0)))
            = (b :: t).map (fun _ => 0) from List.map_congr_left (fun x _ => rfl)]
      simp

/-- Witness for C4: the two-target batch is nonempty and fails fast. -/
theorem download_url_list_missing_dir_fails_fast_witness :
    ([.responds 200 [5], .connError] : List Transport) ≠ [] ∧
    download_url_list false [.responds 200 [5], .connError] = (.error .fileNotFound, 0) :=
  ⟨by decide,
    download_url_list_missing_dir_fails_fast [.responds 200 [5], .connError] (by decide)⟩

/-- The outcome one task produces once the directory check has passed. -/
def streamOutcome : Transport → TaskOutcome
  | .responds _status body => .fileWritten body
  | .connError => .httpErrorLogged

/-- With the destination directory present no task raises: the batch returns
one terminal outcome per target and one transport invocation per target. -/
lemma download_url_list_dest_exists (transports : List Transport) :
    download_url_list true transports =
      (.ok (transports.map streamOutcome), transports.length) := by
  unfold download_url_list
  have hfst : (transports.map (download_single_file true)).map Prod.fst
      = transports.map streamOutcome := by
    rw [List.map_map]
    exact List.map_congr_left (fun x _ => by cases x <;> rfl)
  have hsnd : (transports.map (download_single_file true)).map Prod.snd
      = transports.map (fun _ => 1) := by
    rw [List.map_map]
    exact List.map_congr_left (fun x _ => by cases x <;> rfl)
  have hno : TaskOutcome.raisedFileNotFound ∉ transports.map streamOutcome := by
    intro hmem
    obtain ⟨t, _, ht⟩ := List.mem_map.mp hmem
    cases t <;> simp [streamOutcome] at ht
  rw [hfst, hsnd, if_neg hno]
  simp only [Prod.mk.injEq]
  exact ⟨trivial, by simp⟩

/-- C5 counterexample: a target answered with HTTP 404 is NOT degraded to a
reported failure.  The code never calls raise_for_status, so the error page
body [9] is streamed to the destination file and the target finishes with
the same fileWritten outcome as a genuine success - refuting the claim that
a non-success HTTP status is reported as a failure. -/
theorem http_status_failure_is_silent_success :
    download_url_list true [.responds 200 [5], .responds 404 [9], .responds 200 [7]]
      = (.ok [.fileWritten [5], .fileWritten [9], .fileWritten [7]], 3) ∧
    TaskOutcome.fileWritten [9] ≠ .httpErrorLogged := by
  exact ⟨rfl, by decide⟩

/-- C5 amended: in a batch where exactly one target suffers a raised
connection-level transport failure (httpx.HTTPError) and every other
target receives a server response, no sibling transfer is cancelled: the
batch returns one terminal outcome per target, the failing target degraded
to the reported httpErrorLogged outcome and every responding target
completing with its body written.  A non-success HTTP status, by contrast,
is never detected: for every status the response body is written and the
target completes as if successful. -/
theorem download_url_list_single_failure_isolated (transports : List Transport) (i : Nat)
    (hi : transports[i]? = some .connError)
    (hothers : ∀ j, j < transports.length → j ≠ i →
      ∃ status body, transports[j]? = some (.responds status body)) :
    (∃ outcomes, download_url_list true transports = (.ok outcomes, transports.length) ∧
      outcomes.length = transports.length ∧
      outcomes[i]? = some .httpErrorLogged ∧
      (∀ j, j < transports.length → j ≠ i →
        ∃ body, outcomes[j]? = some (.fileWritten body))) ∧
    (∀ status body, download_single_file true (.responds status body)
        = (.fileWritten body, 1)) := by
  refine ⟨⟨transports.map streamOutcome, download_url_list_dest_exists transports,
    by simp, ?_, ?_⟩, fun _ _ => rfl⟩
  · rw [List.getElem?_map, hi]
    rfl
  · intro j hj hji
    obtain ⟨s, b, hb⟩ := hothers j hj hji
    exact ⟨b, by rw [List.getElem?_map, hb]; rfl⟩

/-- Witness for C5: a three-target batch whose middle target hits a
connection error while a sibling gets a 404 response. -/
theorem download_url_list_single_failure_isolated_witness :
    (([.responds 200 [5], .connError, .responds 404 [9]] : List Transport)[1]?
        = some .connError ∧
      (∀ j, j < 3 → j ≠ 1 →
        ∃ status body, ([.responds 200 [5], .connError,
          .responds 404 [9]] : List Transport)[j]? = some (.responds status body))) ∧
    ((∃ outcomes, download_url_list true [.responds 200 [5], .connError, .responds 404 [9]]
        = (.ok outcomes, 3) ∧
      outcomes.length = 3 ∧
      outcomes[1]? = some .httpErrorLogged ∧
      (∀ j, j < 3 → j ≠ 1 → ∃ body, outcomes[j]? = some (.fileWritten body))) ∧
    (∀ status body, download_single_file true (.responds status body)
        = (.fileWritten body, 1))) :=
  ⟨⟨rfl, by
      intro j hj hji
      interval_cases j
      · exact ⟨200, [5], rfl⟩
      · exact absurd rfl hji
      · exact ⟨404, [9], rfl⟩⟩,
    download_url_list_single_failure_isolated
      [.responds 200 [5], .connError, .responds 404 [9]] 1 rfl
      (by
        intro j hj hji
        have hj3 : j < 3 := by simpa using hj
        interval_cases j
        · exact ⟨200, [5], rfl⟩
        · exact absurd rfl hji
        · exact ⟨404, [9], rfl⟩)⟩

/-! ## Grid decoder adapter (get_grib_data) and the transform loop
(get_wind_data)

get_grib_data runs grib_dump as a subprocess.  Only FileNotFoundError (the
executable cannot be located) is caught: it prints and calls sys.exit with
an installation-guidance message, which Python turns into process exit
status 1.  A non-zero decoder exit (check=True), unparsable stdout, or an
empty messages array raise CalledProcessError, JSONDecodeError or
IndexError, none of which are caught anywhere in the program, so they
propagate out of the per-file loop of get_wind_data. -/

/-- A JSON scalar as found in the grib_dump output. -/
inductive GVal
  | num (n : Int)
  | str (s : String)
deriving DecidableEq

/-- The possible outcomes of running the external grib_dump subprocess. -/
inductive DecoderResult
  | toolMissing
  | nonzeroExit
  | badJson
  | output (messages : List (List (String × GVal)))

/-- How a per-file iteration of the run can terminate abnormally. -/
inductive RunErr
  | sysExit (msg : String)
  | calledProcessError
  | jsonDecodeError
  | indexError
deriving DecidableEq

/-- The message passed to sys.exit when grib_dump is not found. -/
def ecCodesExitMsg : String :=
  "ecCodes is probably not installed. ecCodes isn't available on PyPI."
    ++ " Refer here for installation: https://confluence.ecmwf.int/display/ECC/ecCodes+Installation"

/-- Python dict insertion: an existing key keeps its position and gets the
new value, a new key is appended. -/
def dictInsert (d : List (String × GVal)) (k : String) (v : GVal) : List (String × GVal) :=
  if d.any (fun kv => kv.1 = k) then d.map (fun kv => if kv.1 = k then (k, v) else kv)
  else d ++ [(k, v)]

/-- optimize_json: the dict comprehension over the key/value objects of one
message. -/
def optimize_json (message : List (String × GVal)) : List (String × GVal) :=
  message.foldl (fun d kv => dictInsert d kv.1 kv.2) []

/-- get_grib_data on one file, as a function of what the grib_dump
subprocess does on that file. -/
def get_grib_data (res : DecoderResult) : Except RunErr (List (String × GVal)) :=
  match res with
  | .toolMissing => .error (.sysExit ecCodesExitMsg)
  | .nonzeroExit => .error .calledProcessError
  | .badJson => .error .jsonDecodeError
  | .output messages =>
    match messages with
    | [] => .error .indexError
    | m :: _ => .ok (optimize_json m)

/-- Python exit status of sys.exit(msg) for a non-integer msg: the message
is printed to stderr and the process exits with status 1. -/
def pySysExitStatus (_msg : String) : Nat := 1

/-- The per-file transform loop of get_wind_data: files are handled
strictly in order, and an exception escaping one iteration propagates
(there is no try/except around the loop body).  Returns the list of files
whose processing was started together with the error, if any, that ended
the run. -/
def transformLoop (process : Nat → Except RunErr Unit) : List Nat → List Nat × Option RunErr
  | [] => ([], none)
  | f :: rest =>
    match process f with
    | .error e => ([f], some e)
    | .ok _ =>
      match transformLoop process rest with
      | (started, err) => (f :: started, err)

lemma transformLoop_stops_at_first_error (process : Nat → Except RunErr Unit)
    (pre : List Nat) (f : Nat) (post : List Nat) (e : RunErr)
    (hpre : ∀ g ∈ pre, process g = .ok ()) (hf : process f = .error e) :
    transformLoop process (pre ++ f :: post) = (pre ++ [f], some e) := by
  induction pre with
  | nil =>
    simp only [List.nil_append, transformLoop, hf]
  | cons g t ih =>
    have hg : process g = .ok () := hpre g (List.mem_cons_self _ _)
    have ih2 := ih (fun x hx => hpre x (List.mem_cons_of_mem _ hx))
    simp only [List.cons_append, transformLoop, hg, List.append_eq, ih2]

/-- The concrete decoder environment of the C6 counterexample: the decoder
exits non-zero on file 1 (a decode error) and succeeds on every other
file. -/
def decodeFailsAtOne : Nat → Except RunErr Unit :=
  fun f =>
    (get_grib_data (if f = 1 then .nonzeroExit else .output [[("Ni", .num 1215)]])).map
      (fun _ => ())

/-- C6 counterexample: in a run over files [0, 1, 2] where file 1 hits a
decode error (decoder exits non-zero), processing starts for files 0 and 1
only; file 2 is never processed, so the decode error is NOT contained to
the one (field, hour, level) unit as the claim states. -/
theorem decode_error_aborts_rest_of_run :
    decodeFailsAtOne 1 = .error .calledProcessError ∧
    transformLoop decodeFailsAtOne [0, 1, 2] = ([0, 1], some .calledProcessError) ∧
    2 ∉ (transformLoop decodeFailsAtOne [0, 1, 2]).1 := by
  refine ⟨rfl, rfl, by decide⟩

/-- The decoder environment for the unparsable-output flavor: grib_dump
prints stdout that json.loads rejects on file 1 and behaves normally on
every other file. -/
def decodeBadJsonAtOne : Nat → Except RunErr Unit :=
  fun f =>
    (get_grib_data (if f = 1 then .badJson else .output [[("Ni", .num 1215)]])).map
      (fun _ => ())

/-- C6 amended: a decode error - the decoder exiting non-zero
(CalledProcessError via check=True) or its output failing to parse
(JSONDecodeError) - on one file ends the whole run at that file: every
earlier file was processed, the failing file is the last one started, the
error propagates out of the loop, and no later file is attempted. -/
theorem decode_error_propagates_out_of_loop (process : Nat → Except RunErr Unit)
    (pre : List Nat) (f : Nat) (post : List Nat) (e : RunErr)
    (_he : e = .calledProcessError ∨ e = .jsonDecodeError)
    (hpre : ∀ g ∈ pre, process g = .ok ()) (hf : process f = .error e) :
    transformLoop process (pre ++ f :: post) = (pre ++ [f], some e) ∧
    ∀ g ∈ post, g ∉ pre ++ [f] → g ∉ (transformLoop process (pre ++ f :: post)).1 := by
  have h := transformLoop_stops_at_first_error process pre f post _ hpre hf
  refine ⟨h, ?_⟩
  intro g _ hg
  rw [h]
  exact hg

/-- Witness for the amended C6: concrete runs over [0, 1, 2] failing at
file 1, once with the decoder exiting non-zero and once with unparsable
decoder output. -/
theorem decode_error_propagates_out_of_loop_witness :
    (((RunErr.calledProcessError = .calledProcessError ∨
          RunErr.calledProcessError = .jsonDecodeError) ∧
        (∀ g ∈ [0], decodeFailsAtOne g = .ok ()) ∧
        decodeFailsAtOne 1 = .error .calledProcessError) ∧
      ((RunErr.jsonDecodeError = .calledProcessError ∨
          RunErr.jsonDecodeError = .jsonDecodeError) ∧
        (∀ g ∈ [0], decodeBadJsonAtOne g = .ok ()) ∧
        decodeBadJsonAtOne 1 = .error .jsonDecodeError)) ∧
    ((transformLoop decodeFailsAtOne ([0] ++ 1 :: [2]) = ([0] ++ [1], some .calledProcessError) ∧
        ∀ g ∈ [2], g ∉ [0] ++ [1] → g ∉ (transformLoop decodeFailsAtOne ([0] ++ 1 :: [2])).1) ∧
      (transformLoop decodeBadJsonAtOne ([0] ++ 1 :: [2]) = ([0] ++ [1], some .jsonDecodeError) ∧
        ∀ g ∈ [2], g ∉ [0] ++ [1] → g ∉ (transformLoop decodeBadJsonAtOne ([0] ++ 1 :: [2])).1)) :=
  ⟨⟨⟨Or.inl rfl, by intro g hg; rcases List.mem_singleton.mp hg with rfl; rfl, rfl⟩,
      ⟨Or.inr rfl, by intro g hg; rcases List.mem_singleton.mp hg with rfl; rfl, rfl⟩⟩,
    ⟨decode_error_propagates_out_of_loop decodeFailsAtOne [0] 1 [2] .calledProcessError
        (Or.inl rfl) (by intro g hg; rcases List.mem_singleton.mp hg with rfl; rfl) rfl,
      decode_error_propagates_out_of_loop decodeBadJsonAtOne [0] 1 [2] .jsonDecodeError
        (Or.inr rfl) (by intro g hg; rcases List.mem_singleton.mp hg with rfl; rfl) rfl⟩⟩

/-- C7: a missing grib_dump executable is caught once and turned into
sys.exit with the installation-guidance message: the message names ecCodes,
the resulting process exit status is non-zero, no other decoder outcome
(non-zero exit, unparsable output, empty message array, success) produces
that error, and the sys.exit ends the run at the file where it happened. -/
theorem missing_decoder_is_fatal_tool_error (process : Nat → Except RunErr Unit)
    (pre : List Nat) (f : Nat) (post : List Nat)
    (hpre : ∀ g ∈ pre, process g = .ok ())
    (hf : process f = .error (.sysExit ecCodesExitMsg)) :
    get_grib_data .toolMissing = .error (.sysExit ecCodesExitMsg) ∧
    ecCodesExitMsg.data.take 7 = "ecCodes".data ∧
    pySysExitStatus ecCodesExitMsg ≠ 0 ∧
    (∀ res : DecoderResult, get_grib_data res = .error (.sysExit ecCodesExitMsg) →
      res = .toolMissing) ∧
    transformLoop process (pre ++ f :: post) = (pre ++ [f], some (.sysExit ecCodesExitMsg)) := by
  refine ⟨rfl, by decide, by decide, ?_, transformLoop_stops_at_first_error process pre f post _ hpre hf⟩
  intro res hres
  cases res with
  | toolMissing => rfl
  | nonzeroExit => exact absurd hres (by simp [get_grib_data])
  | badJson => exact absurd hres (by simp [get_grib_data])
  | output messages =>
    cases messages with
    | nil => exact absurd hres (by simp [get_grib_data])
    | cons m rest => exact absurd hres (by simp [get_grib_data])

/-- Witness for C7: a run over [0, 1] where grib_dump is missing at file 0. -/
theorem missing_decoder_is_fatal_tool_error_witness :
    ((∀ g ∈ ([] : List Nat), (fun _ : Nat => get_grib_data .toolMissing |>.map
        (fun _ => ())) g = .ok ()) ∧
      (fun _ : Nat => get_grib_data .toolMissing |>.map (fun _ => ())) 0
        = .error (.sysExit ecCodesExitMsg)) ∧
    (get_grib_data .toolMissing = .error (.sysExit ecCodesExitMsg) ∧
      ecCodesExitMsg.data.take 7 = "ecCodes".data ∧
      pySysExitStatus ecCodesExitMsg ≠ 0 ∧
      (∀ res : DecoderResult, get_grib_data res = .error (.sysExit ecCodesExitMsg) →
        res = .toolMissing) ∧
      transformLoop (fun _ : Nat => get_grib_data .toolMissing |>.map (fun _ => ()))
          ([] ++ 0 :: [1]) = ([] ++ [0], some (.sysExit ecCodesExitMsg))) :=
  ⟨⟨by simp, rfl⟩,
    missing_decoder_is_fatal_tool_error
      (fun _ : Nat => get_grib_data .toolMissing |>.map (fun _ => ())) [] 0 [1]
      (by simp) rfl⟩

/-! ## Decompressor (extract_grib_file)

extract_grib_file reads the compressed file, bz2-decompresses it in memory,
and only then opens path.with_suffix("") for writing.  An invalid stream
makes bz2.decompress raise inside the first with-block, before the output
file is created.  File names are modelled by their dot-separated parts and
the file system by a map from paths to contents; bz2 content is tagged with
the payload it decompresses to, anything else is not a valid bz2 stream. -/

structure DotPath where
  parts : List String
deriving DecidableEq

/-- pathlib with_suffix(""): drop the last dot-separated part when the name
has a suffix, otherwise leave the path alone. -/
def with_suffix_empty (p : DotPath) : DotPath :=
  if 2 ≤ p.parts.length then ⟨p.parts.dropLast⟩ else p

inductive FileData
  | bz2Data (payload : List Nat)
  | rawData (content : List Nat)
deriving DecidableEq

inductive ExtractErr
  | fileNotFound
  | invalidDataStream
deriving DecidableEq

def FileSystem : Type := DotPath → Option FileData

def fsWrite (fs : FileSystem) (p : DotPath) (d : FileData) : FileSystem :=
  fun q => if q = p then some d else fs q

/-- extract_grib_file: returns the file system after the call together with
the exception, if one was raised (in which case nothing was written). -/
def extract_grib_file (fs : FileSystem) (p : DotPath) : FileSystem × Option ExtractErr :=
  match fs p with
  | none => (fs, some .fileNotFound)
  | some (.rawData _) => (fs, some .invalidDataStream)
  | some (.bz2Data payload) => (fsWrite fs (with_suffix_empty p) (.rawData payload), none)

/-- C9: for a path with the bz2 suffix, decompressing a valid archive
succeeds and writes the payload to the sibling path with the suffix
stripped - a genuinely different path - while the compressed input is left
in place unchanged and every unrelated file is untouched; on content that
is not a valid bz2 stream it fails with the decompression error and the
file system is completely unchanged (no output file written). -/
theorem extract_grib_file_contract (fs : FileSystem) (p : DotPath)
    (payload content : List Nat)
    (_hsuffix : p.parts.getLast? = some "bz2") (hlen : 2 ≤ p.parts.length) :
    (with_suffix_empty p ≠ p) ∧
    (fs p = some (.bz2Data payload) →
      (extract_grib_file fs p).2 = none ∧
      (extract_grib_file fs p).1 (with_suffix_empty p) = some (.rawData payload) ∧
      (extract_grib_file fs p).1 p = some (.bz2Data payload) ∧
      (∀ q, q ≠ with_suffix_empty p → (extract_grib_file fs p).1 q = fs q)) ∧
    (fs p = some (.rawData content) →
      (extract_grib_file fs p).2 = some .invalidDataStream ∧
      (extract_grib_file fs p).1 = fs) := by
  have hne : with_suffix_empty p ≠ p := by
    intro h
    have hlens := congrArg (fun q => q.parts.length) h
    simp only [with_suffix_empty, if_pos hlen, List.length_dropLast] at hlens
    omega
  refine ⟨hne, ?_, ?_⟩
  · intro hread
    have hext : extract_grib_file fs p
        = (fsWrite fs (with_suffix_empty p) (.rawData payload), none) := by
      unfold extract_grib_file
      rw [hread]
    refine ⟨by rw [hext], ?_, ?_, ?_⟩
    · rw [hext]
      simp [fsWrite]
    · rw [hext]
      simp only [fsWrite]
      rw [if_neg (fun h : p = with_suffix_empty p => hne h.symm)]
      exact hread
    · intro q hq
      rw [hext]
      simp only [fsWrite, if_neg hq]
  · intro hread
    have hext : extract_grib_file fs p = (fs, some .invalidDataStream) := by
      unfold extract_grib_file
      rw [hread]
    exact ⟨by rw [hext], by rw [hext]⟩

/-- Witness for C9: a one-file system holding the valid archive
file.grib2.bz2; the suffix hypotheses are discharged concretely and the
success branch is exercised (the invalid-stream branch holds vacuously
here, its hypothesis being false of this file system). -/
theorem extract_grib_file_contract_witness :
    ((DotPath.mk ["file", "grib2", "bz2"]).parts.getLast? = some "bz2" ∧
      2 ≤ (DotPath.mk ["file", "grib2", "bz2"]).parts.length) ∧
    (with_suffix_empty ⟨["file", "grib2", "bz2"]⟩ ≠ ⟨["file", "grib2", "bz2"]⟩ ∧
      ((fun q : DotPath => if q = ⟨["file", "grib2", "bz2"]⟩
          then some (FileData.bz2Data [7, 7]) else none) ⟨["file", "grib2", "bz2"]⟩
            = some (.bz2Data [7, 7]) →
        (extract_grib_file (fun q : DotPath => if q = ⟨["file", "grib2", "bz2"]⟩
            then some (FileData.bz2Data [7, 7]) else none) ⟨["file", "grib2", "bz2"]⟩).2 = none ∧
        (extract_grib_file (fun q : DotPath => if q = ⟨["file", "grib2", "bz2"]⟩
            then some (FileData.bz2Data [7, 7]) else none) ⟨["file", "grib2", "bz2"]⟩).1
              (with_suffix_empty ⟨["file", "grib2", "bz2"]⟩) = some (.rawData [7, 7]) ∧
        (extract_grib_file (fun q : DotPath => if q = ⟨["file", "grib2", "bz2"]⟩
            then some (FileData.bz2Data [7, 7]) else none) ⟨["file", "grib2", "bz2"]⟩).1
              ⟨["file", "grib2", "bz2"]⟩ = some (.bz2Data [7, 7]) ∧
        (∀ q, q ≠ with_suffix_empty ⟨["file", "grib2", "bz2"]⟩ →
          (extract_grib_file (fun q : DotPath => if q = ⟨["file", "grib2", "bz2"]⟩
              then some (FileData.bz2Data [7, 7]) else none) ⟨["file", "grib2", "bz2"]⟩).1 q
            = (fun q : DotPath => if q = ⟨["file", "grib2", "bz2"]⟩
                then some (FileData.bz2Data [7, 7]) else none) q)) ∧
      ((fun q : DotPath => if q = ⟨["file", "grib2", "bz2"]⟩
          then some (FileData.bz2Data [7, 7]) else none) ⟨["file", "grib2", "bz2"]⟩
            = some (.rawData [9]) →
        (extract_grib_file (fun q : DotPath => if q = ⟨["file", "grib2", "bz2"]⟩
            then some (FileData.bz2Data [7, 7]) else none) ⟨["file", "grib2", "bz2"]⟩).2
              = some .invalidDataStream ∧
        (extract_grib_file (fun q : DotPath => if q = ⟨["file", "grib2", "bz2"]⟩
            then some (FileData.bz2Data [7, 7]) else none) ⟨["file", "grib2", "bz2"]⟩).1
          = (fun q : DotPath => if q = ⟨["file", "grib2", "bz2"]⟩
              then some (FileData.bz2Data [7, 7]) else none))) :=
  ⟨⟨rfl, by decide⟩,
    extract_grib_file_contract
      (fun q : DotPath => if q = ⟨["file", "grib2", "bz2"]⟩
        then some (FileData.bz2Data [7, 7]) else none)
      ⟨["file", "grib2", "bz2"]⟩ [7, 7] [9] rfl (by decide)⟩

/-! ## Model run hour (get_wind_data timestamp computation) -/

/-- The run-hour computation at the top of get_wind_data: round the local
hour down to a multiple of 3, subtract the 3-hour publication lag unless
latest is set, and on underflow borrow one day and wrap the hour by 24.
Returns (day, latest_hour). -/
def compute_latest_hour (day local_hour : Int) (latest : Bool) : Int × Int :=
  let lh0 : Int := local_hour - local_hour % 3
  let lh1 : Int := if latest then lh0 else lh0 - 3
  if lh1 < 0 then (day - 1, 24 + lh1) else (day, lh1)

/-- Python format specifier 02d for the values reached here (0 ≤ n < 100):
pad with a leading zero to width two. -/
def format02d (n : Int) : String :=
  if n < 10 then "0" ++ toString n else toString n

/-- C10: for every local wall-clock hour 0..23 and both values of the
latest flag, the computed run hour is a multiple of 3 within 0..21; when
the publication-lag subtraction would go negative the day is decremented
and the hour wraps to 21; and the formatted hour field has exactly two
digits. -/
theorem compute_latest_hour_invariants (day local_hour : Int) (latest : Bool)
    (h0 : 0 ≤ local_hour) (h23 : local_hour ≤ 23) :
    (compute_latest_hour day local_hour latest).2 % 3 = 0 ∧
    (0 ≤ (compute_latest_hour day local_hour latest).2 ∧
      (compute_latest_hour day local_hour latest).2 ≤ 21) ∧
    ((latest = false ∧ local_hour - local_hour % 3 - 3 < 0) →
      ((compute_latest_hour day local_hour latest).1 = day - 1 ∧
        (compute_latest_hour day local_hour latest).2 = 21)) ∧
    (format02d (compute_latest_hour day local_hour latest).2).length = 2 := by
  interval_cases local_hour <;> cases latest <;>
    simp [compute_latest_hour, format02d] <;> decide

/-- Witness for C10: local hour 2 with latest unset underflows and wraps. -/
theorem compute_latest_hour_invariants_witness :
    ((0 : Int) ≤ 2 ∧ (2 : Int) ≤ 23) ∧
    ((compute_latest_hour 10 2 false).2 % 3 = 0 ∧
      (0 ≤ (compute_latest_hour 10 2 false).2 ∧ (compute_latest_hour 10 2 false).2 ≤ 21) ∧
      ((false = false ∧ (2 : Int) - 2 % 3 - 3 < 0) →
        ((compute_latest_hour 10 2 false).1 = 10 - 1 ∧
          (compute_latest_hour 10 2 false).2 = 21)) ∧
      (format02d (compute_latest_hour 10 2 false).2).length = 2) :=
  ⟨⟨by decide, by decide⟩,
    compute_latest_hour_invariants 10 2 false (by decide) (by decide)⟩

end DwdOpendata
